import Mathlib

/-!
Verification of the Neo4j-backed knowledge-graph service layer
(`app/database/neo4j.py` and its routers) against its specification.

The graph store is shallowly embedded: Article/Community data and the
REFERS_TO / BELONGS_TO relationships become explicit Lean structures, each
Cypher query of the service becomes an executable Lean function over that
store (following standard Cypher matching and aggregation semantics: an
undirected relationship pattern matches a stored relationship once per
traversal orientation, and a `WITH` clause containing an aggregate groups
by its non-aggregated columns), and the GDS orchestration code becomes an
explicit function from a failure environment to a result together with a
log of the engine operations it performed.  Machine floats are modelled by
`ℚ`; fallible paths return `Except`.
-/

/-- An `Article` node: `nodeId` is the internal engine id (`id(n)` in
Cypher), the remaining fields are the stored properties (`a.id`,
`a.target`, `a.community_id`, `a.article_id`, `a.article_title`). -/
structure Article where
  nodeId : Nat
  id : Int
  target : Option Int
  community_id : Option Int
  article_id : String
  article_title : String
deriving DecidableEq, Repr

/-- The relevant slice of the graph store: Article nodes, undirected
REFERS_TO relationships (stored once per edge, as an ordered pair of
internal node ids), Community nodes (by their `community_id` property) and
directed BELONGS_TO relationships (article node id, community id). -/
structure GraphStore where
  articles : List Article
  refersTo : List (Nat × Nat)
  communities : List Int
  belongsTo : List (Nat × Int)
deriving DecidableEq, Repr

/-- Well-formedness of a store, matching the data model the bulk loader
produces: distinct internal node ids, distinct `id` properties, REFERS_TO
edges join two distinct existing Articles, each undirected edge is stored
exactly once (no duplicate and no reversed duplicate), Community ids are
distinct, and each Article belongs to at most one Community. -/
def GraphStore.WF (g : GraphStore) : Prop :=
  (g.articles.map (·.nodeId)).Nodup ∧
  (g.articles.map (·.id)).Nodup ∧
  (∀ e ∈ g.refersTo, (∃ a ∈ g.articles, a.nodeId = e.1) ∧ ∃ a ∈ g.articles, a.nodeId = e.2) ∧
  (∀ e ∈ g.refersTo, e.1 ≠ e.2) ∧
  g.refersTo.Nodup ∧
  (∀ e ∈ g.refersTo, (e.2, e.1) ∉ g.refersTo) ∧
  g.communities.Nodup ∧
  (∀ p ∈ g.belongsTo, ∀ q ∈ g.belongsTo, p.1 = q.1 → p.2 = q.2) ∧
  g.belongsTo.Nodup

instance (g : GraphStore) : Decidable g.WF := by
  unfold GraphStore.WF; infer_instance

/-- All matches of the undirected pattern `(x)-[r:REFERS_TO]-(m)` for a
fixed node `x`: each stored edge incident to `x` is traversed once per
orientation that starts at `x`.  (A self-loop would be matched once by the
engine; well-formed stores exclude self-loops.) -/
def undirectedMatches (g : GraphStore) (x : Nat) : List Nat :=
  g.refersTo.filterMap (fun e => if e.1 = x then some e.2 else none) ++
  g.refersTo.filterMap (fun e => if e.2 = x then some e.1 else none)

/-- `OPTIONAL MATCH (a)-[r:REFERS_TO]-() WITH a, count(r) as degree`:
the REFERS_TO incidence count of a node. -/
def degreeOf (g : GraphStore) (x : Nat) : Nat :=
  (undirectedMatches g x).length

/-! ## Generic entity surface (`get_entity_relationships`, claim C10) -/

/-- A stored relationship of the generic entity surface: internal
relationship id, type tag, and the internal ids of its start and end
nodes (`startNode(r)` / `endNode(r)`). -/
structure StoredRel where
  relId : Nat
  relType : String
  startId : Nat
  endId : Nat
deriving DecidableEq, Repr

/-- One row returned by the relationship queries:
`id(r), type(r), start_node_id, end_node_id`. -/
structure RelRow where
  id : Nat
  type : String
  start_node_id : Nat
  end_node_id : Nat
deriving DecidableEq, Repr

/-- `Neo4jService.get_entity_relationships`: dispatches on the `direction`
string.  `"outgoing"` matches `(n)-[r]->(m)` with `id(n) = entity_id` and
reports `id(n)` as start and `id(m)` as end; `"incoming"` matches
`(n)<-[r]-(m)` and reports `id(m)` as start and `id(n)` as end; every
other direction string falls into the `else` branch, which matches the
undirected pattern `(n)-[r]-(m)` and resolves the reported endpoint ids
via `id(startNode(r))` and `id(endNode(r))`. -/
def get_entity_relationships (rels : List StoredRel) (entity_id : Nat)
    (direction : String) : List RelRow :=
  if direction = "outgoing" then
    (rels.filter (fun r => r.startId = entity_id)).map
      (fun r => ⟨r.relId, r.relType, entity_id, r.endId⟩)
  else if direction = "incoming" then
    (rels.filter (fun r => r.endId = entity_id)).map
      (fun r => ⟨r.relId, r.relType, r.startId, entity_id⟩)
  else
    (rels.filter (fun r => r.startId = entity_id || r.endId = entity_id)).map
      (fun r => ⟨r.relId, r.relType, r.startId, r.endId⟩)

/-! ## Recommendation endpoint dispatch (claim C3) -/

/-- The three recommendation queries of `get_recommendations`. -/
inductive RecQueryKind where
  | communityQ
  | referencesQ
  | hybridQ
deriving DecidableEq, Repr

/-- Query selection inside `Neo4jService.get_recommendations`: `if/elif`
on the strategy string with a final `else` falling through to the hybrid
query. -/
def get_recommendations_query (strategy : String) : RecQueryKind :=
  if strategy = "community" then .communityQ
  else if strategy = "references" then .referencesQ
  else .hybridQ

/-- Outcome of the `/recommendations` handler (advanced_router). -/
inductive RecEndpointResponse where
  | badRequest
  | ok (q : RecQueryKind)
deriving DecidableEq, Repr

/-- The `/recommendations` route handler: a guard rejects any strategy
outside the allowed list with HTTP 400 before the service is touched;
otherwise the service issues exactly the selected query.  The second
component is the log of graph-store queries issued. -/
def recommendations_endpoint (strategy : String) :
    RecEndpointResponse × List RecQueryKind :=
  if ¬ (strategy ∈ ["community", "references", "hybrid"]) then
    (.badRequest, [])
  else
    (.ok (get_recommendations_query strategy), [get_recommendations_query strategy])

/-! ## Connectivity probe (claim C8) -/

/-- Possible outcomes of the underlying `driver.verify_connectivity()`
probe: success, a server-side error of the `Neo4jError` hierarchy, or a
driver-side error outside that hierarchy (e.g. `ServiceUnavailable`, the
exception raised when the store is unreachable, which derives from
`DriverError`, not from `Neo4jError`). -/
inductive ProbeOutcome where
  | success
  | neo4jError
  | driverError
deriving DecidableEq, Repr

/-- `Neo4jService.verify_connectivity`: returns `True` on success and
catches exactly the `Neo4jError` hierarchy, returning `False`; any other
exception propagates. -/
def verify_connectivity : ProbeOutcome → Except Unit Bool
  | .success => .ok true
  | .neo4jError => .ok false
  | .driverError => .error ()

/-! ### Claim C10 -/

/-- C10: at the service layer, every direction value other than
`"outgoing"` and `"incoming"` (not just `"both"`) runs the undirected
query: the result agrees with the `"both"` call, and each returned row is
a stored relationship incident to the entity whose reported endpoint ids
are resolved from the stored relationship's own start and end nodes
(`startNode(r)`/`endNode(r)`), rather than the request being rejected. -/
theorem entity_relationships_default_undirected (rels : List StoredRel)
    (e : Nat) (d : String) (h1 : d ≠ "outgoing") (h2 : d ≠ "incoming") :
    get_entity_relationships rels e d = get_entity_relationships rels e "both" ∧
    ∀ row ∈ get_entity_relationships rels e d, ∃ r ∈ rels,
      (r.startId = e ∨ r.endId = e) ∧
      row = ⟨r.relId, r.relType, r.startId, r.endId⟩ := by
  constructor
  · simp [get_entity_relationships, h1, h2]
  · intro row hrow
    simp only [get_entity_relationships, h1, h2, if_false, if_neg, reduceIte,
      List.mem_map, List.mem_filter] at hrow
    obtain ⟨r, ⟨hr, hcond⟩, hrw⟩ := hrow
    exact ⟨r, hr, by simpa using Bool.or_eq_true _ _ |>.mp hcond, hrw.symm⟩

/-- Witness for C10 at a concrete store and the direction string
`"sideways"`. -/
theorem entity_relationships_default_undirected_witness :
    ("sideways" ≠ "outgoing" ∧ "sideways" ≠ "incoming") ∧
    (get_entity_relationships [⟨7, "REFERS_TO", 1, 2⟩] 1 "sideways" =
        get_entity_relationships [⟨7, "REFERS_TO", 1, 2⟩] 1 "both" ∧
      ∀ row ∈ get_entity_relationships [⟨7, "REFERS_TO", 1, 2⟩] 1 "sideways",
        ∃ r ∈ [(⟨7, "REFERS_TO", 1, 2⟩ : StoredRel)],
          (r.startId = 1 ∨ r.endId = 1) ∧
          row = ⟨r.relId, r.relType, r.startId, r.endId⟩) :=
  ⟨⟨by decide, by decide⟩,
    entity_relationships_default_undirected [⟨7, "REFERS_TO", 1, 2⟩] 1 "sideways"
      (by decide) (by decide)⟩

/-! ### Claim C3 -/

/-- C3: a recommendation request whose strategy is none of `"community"`,
`"references"`, `"hybrid"` is rejected with a validation error and no
graph-store query is issued. -/
theorem unknown_strategy_rejected (s : String) (h1 : s ≠ "community")
    (h2 : s ≠ "references") (h3 : s ≠ "hybrid") :
    recommendations_endpoint s = (.badRequest, []) := by
  simp [recommendations_endpoint, h1, h2, h3]

/-- Witness for C3 at the concrete strategy string `"popular"`. -/
theorem unknown_strategy_rejected_witness :
    ("popular" ≠ "community" ∧ "popular" ≠ "references" ∧ "popular" ≠ "hybrid") ∧
    recommendations_endpoint "popular" = (.badRequest, []) :=
  ⟨⟨by decide, by decide, by decide⟩,
    unknown_strategy_rejected "popular" (by decide) (by decide) (by decide)⟩

/-! ### Claim C8 -/

/-- C8 (code bug, evaluated): `verify_connectivity` reports a boolean only
for a successful probe or a `Neo4jError`; a driver-level connectivity
failure (e.g. `ServiceUnavailable`, which is not a `Neo4jError`) is not
caught, so the probe raises instead of returning `false`. -/
theorem verify_connectivity_cases :
    verify_connectivity .success = .ok true ∧
    verify_connectivity .neo4jError = .ok false ∧
    verify_connectivity .driverError = .error () ∧
    ∀ b, verify_connectivity .driverError ≠ .ok b :=
  ⟨rfl, rfl, rfl, fun _ h => Except.noConfusion h⟩

/-! ## GDS algorithm orchestration (claims C1, C7, C9)

`run_pagerank`, `run_louvain` and `run_node_similarity` share one shape:
best-effort drop of a leftover projection, projection creation (routing to
the fallback engine on failure), the algorithm call inside a
`try/finally` whose `finally` re-drops the projection, and result
shaping.  The engine's behaviour is abstracted into an environment
recording which calls fail; each orchestration returns its outcome
together with the ordered log of engine operations it performed. -/

/-- A row streamed by the native node-similarity algorithm:
`article_id`, `article_title`, `similarity_score`. -/
structure EngineSimRow where
  article_id : String
  article_title : String
  similarity_score : ℚ
deriving DecidableEq, Repr

/-- A shaped similar-article row, after the orchestrator attached the
`common_neighbors` field. -/
structure SimilarArticleRow where
  article_id : String
  article_title : String
  similarity_score : ℚ
  common_neighbors : ℤ
deriving DecidableEq, Repr

/-- Python's `int()` conversion on an exact numeric value: truncation
toward zero. -/
def pyInt (q : ℚ) : ℤ :=
  if 0 ≤ q then ⌊q⌋ else -⌊-q⌋

/-- `result["common_neighbors"] = int(result["similarity_score"] * 10)`:
the estimated common-neighbor count attached to each native-path
similarity row. -/
def attachCommonNeighbors (r : EngineSimRow) : SimilarArticleRow :=
  ⟨r.article_id, r.article_title, r.similarity_score, pyInt (r.similarity_score * 10)⟩

/-- Engine operations the orchestrators can perform, in the order they
are issued. -/
inductive GdsOp where
  | dropAttempt (graphName : String)
  | projCreate (graphName : String)
  | algoCall (algo : String)
  | fallbackRun (algo : String)
  | sourceLookup
deriving DecidableEq, Repr

/-- Which engine produced a PageRank/Louvain response. -/
inductive RunPath where
  | native
  | fallback
deriving DecidableEq, Repr

/-- Abstraction of the engine's behaviour during one orchestration call:
whether projection creation fails, whether the algorithm call fails,
whether the similarity source article exists, and the data the engine
returns when calls succeed. -/
structure GdsEnv where
  projectionFails : Bool
  algorithmFails : Bool
  sourceExists : Bool
  sourceTitle : String
  engineRows : List EngineSimRow
  fallbackRows : List SimilarArticleRow
  elapsedMs : ℚ
deriving DecidableEq, Repr

/-- `Neo4jService.run_pagerank`: drop any leftover projection
(best-effort), create the projection — on failure return the
degree-centrality fallback — then run the algorithm inside `try/finally`;
the `finally` drops the projection, and an algorithm-call exception
propagates after the drop. -/
def run_pagerank (env : GdsEnv) : Except Unit RunPath × List GdsOp :=
  let pre := [GdsOp.dropAttempt "articles-pagerank", GdsOp.projCreate "articles-pagerank"]
  if env.projectionFails then
    (.ok .fallback, pre ++ [GdsOp.fallbackRun "pagerank"])
  else
    let ops := pre ++ [GdsOp.algoCall "pageRank", GdsOp.dropAttempt "articles-pagerank"]
    if env.algorithmFails then (.error (), ops) else (.ok .native, ops)

/-- `Neo4jService.run_louvain`: same orchestration shape as
`run_pagerank` with the Louvain projection and the existing-communities
fallback. -/
def run_louvain (env : GdsEnv) : Except Unit RunPath × List GdsOp :=
  let pre := [GdsOp.dropAttempt "articles-louvain", GdsOp.projCreate "articles-louvain"]
  if env.projectionFails then
    (.ok .fallback, pre ++ [GdsOp.fallbackRun "louvain"])
  else
    let ops := pre ++ [GdsOp.algoCall "louvain", GdsOp.dropAttempt "articles-louvain"]
    if env.algorithmFails then (.error (), ops) else (.ok .native, ops)

/-- Response shape of `run_node_similarity`. -/
structure SimilarityResult where
  source_article_id : String
  source_article_title : String
  similar_articles : List SimilarArticleRow
  execution_time_ms : ℚ
deriving DecidableEq, Repr

/-- `Neo4jService.run_node_similarity`: resolve the source article first
and short-circuit to an empty result with zero execution time when it
does not exist; otherwise drop/create the projection (fallback on
creation failure), run the algorithm inside `try/finally` (the `finally`
drops the projection, an algorithm exception propagates), and attach the
estimated `common_neighbors` to each streamed row. -/
def run_node_similarity (article_id : String) (env : GdsEnv) :
    Except Unit SimilarityResult × List GdsOp :=
  if env.sourceExists = false then
    (.ok ⟨article_id, "Unknown", [], 0⟩, [GdsOp.sourceLookup])
  else
    let pre := [GdsOp.sourceLookup, GdsOp.dropAttempt "articles-similarity",
      GdsOp.projCreate "articles-similarity"]
    if env.projectionFails then
      (.ok ⟨article_id, env.sourceTitle, env.fallbackRows, env.elapsedMs⟩,
        pre ++ [GdsOp.fallbackRun "nodeSimilarity"])
    else
      let ops := pre ++ [GdsOp.algoCall "nodeSimilarity", GdsOp.dropAttempt "articles-similarity"]
      if env.algorithmFails then
        (.error (), ops)
      else
        (.ok ⟨article_id, env.sourceTitle, env.engineRows.map attachCommonNeighbors,
          env.elapsedMs⟩, ops)

/-- Environment in which the projection is created successfully and the
algorithm call then fails. -/
def envAlgoFail : GdsEnv :=
  { projectionFails := false, algorithmFails := true, sourceExists := true,
    sourceTitle := "T0", engineRows := [], fallbackRows := [], elapsedMs := 0 }

/-! ### Claim C1 -/

/-- C1 counterexample: when the PageRank algorithm call fails after a
successful projection, the caller receives the error and the fallback
engine is never invoked — refuting the claim that an algorithm-path
failure always routes to the fallback and never surfaces as an error. -/
theorem pagerank_algorithm_failure_not_fallback :
    (run_pagerank envAlgoFail).1 = .error () ∧
    ∀ a, GdsOp.fallbackRun a ∉ (run_pagerank envAlgoFail).2 := by
  constructor
  · rfl
  · intro a
    simp [run_pagerank, envAlgoFail]

/-- C1 as amended: for each of the three native algorithm invocations, if
the algorithm call fails after the projection was successfully created,
the projection teardown is still attempted (the final drop in the
operation log), but the algorithm error propagates to the caller and the
fallback engine is not invoked; the fallback produces the response only
on projection-creation failure. -/
theorem native_algorithm_failure_teardown_then_propagate (env : GdsEnv)
    (aid : String) (hp : env.projectionFails = false)
    (ha : env.algorithmFails = true) (hs : env.sourceExists = true) :
    run_pagerank env = (.error (),
      [.dropAttempt "articles-pagerank", .projCreate "articles-pagerank",
       .algoCall "pageRank", .dropAttempt "articles-pagerank"]) ∧
    run_louvain env = (.error (),
      [.dropAttempt "articles-louvain", .projCreate "articles-louvain",
       .algoCall "louvain", .dropAttempt "articles-louvain"]) ∧
    run_node_similarity aid env = (.error (),
      [.sourceLookup, .dropAttempt "articles-similarity",
       .projCreate "articles-similarity", .algoCall "nodeSimilarity",
       .dropAttempt "articles-similarity"]) ∧
    (∀ env2 : GdsEnv, env2.projectionFails = true →
      (run_pagerank env2).1 = .ok .fallback) := by
  refine ⟨?_, ?_, ?_, ?_⟩
  · simp [run_pagerank, hp, ha]
  · simp [run_louvain, hp, ha]
  · simp [run_node_similarity, hp, ha, hs]
  · intro env2 h2
    simp [run_pagerank, h2]

/-- Witness for the amended C1 at the concrete environment
`envAlgoFail`. -/
theorem native_algorithm_failure_teardown_then_propagate_witness :
    (envAlgoFail.projectionFails = false ∧ envAlgoFail.algorithmFails = true ∧
      envAlgoFail.sourceExists = true) ∧
    run_pagerank envAlgoFail = (.error (),
      [.dropAttempt "articles-pagerank", .projCreate "articles-pagerank",
       .algoCall "pageRank", .dropAttempt "articles-pagerank"]) ∧
    run_louvain envAlgoFail = (.error (),
      [.dropAttempt "articles-louvain", .projCreate "articles-louvain",
       .algoCall "louvain", .dropAttempt "articles-louvain"]) ∧
    run_node_similarity "A0" envAlgoFail = (.error (),
      [.sourceLookup, .dropAttempt "articles-similarity",
       .projCreate "articles-similarity", .algoCall "nodeSimilarity",
       .dropAttempt "articles-similarity"]) ∧
    (∀ env2 : GdsEnv, env2.projectionFails = true →
      (run_pagerank env2).1 = .ok .fallback) :=
  ⟨⟨rfl, rfl, rfl⟩,
    native_algorithm_failure_teardown_then_propagate envAlgoFail "A0" rfl rfl rfl⟩

/-! ### Claim C9 -/

/-- C9: when the source article does not exist, `run_node_similarity`
short-circuits to a result with an empty `similar_articles` list and zero
execution time, performing only the source lookup — no projection drop,
projection creation or algorithm call. -/
theorem node_similarity_missing_source_short_circuit (aid : String)
    (env : GdsEnv) (h : env.sourceExists = false) :
    run_node_similarity aid env = (.ok ⟨aid, "Unknown", [], 0⟩, [.sourceLookup]) := by
  simp [run_node_similarity, h]

/-- Environment in which the similarity source article does not exist. -/
def envNoSource : GdsEnv :=
  { projectionFails := false, algorithmFails := false, sourceExists := false,
    sourceTitle := "T0", engineRows := [], fallbackRows := [], elapsedMs := 5 }

/-- Witness for C9 at the concrete environment `envNoSource`. -/
theorem node_similarity_missing_source_short_circuit_witness :
    envNoSource.sourceExists = false ∧
    run_node_similarity "A9" envNoSource =
      (.ok ⟨"A9", "Unknown", [], 0⟩, [.sourceLookup]) :=
  ⟨rfl, node_similarity_missing_source_short_circuit "A9" envNoSource rfl⟩

/-! ### Claim C7 -/

/-- Environment in which the native similarity path succeeds and streams
one row with similarity score `11/16`. -/
def envSimRows : GdsEnv :=
  { projectionFails := false, algorithmFails := false, sourceExists := true,
    sourceTitle := "T0", engineRows := [⟨"A1", "T1", 11/16⟩], fallbackRows := [],
    elapsedMs := 0 }

/-- C7 counterexample: a native-path similarity row with score `11/16`
gets `common_neighbors = 6` (truncation of `6.875`), while the
rounded-to-nearest value of ten times the score is `7` — refuting the
claim that `common_neighbors` equals `round(similarity_score × 10)`. -/
theorem similarity_common_neighbors_not_rounded :
    ∃ res, (run_node_similarity "A0" envSimRows).1 = .ok res ∧
      ∃ row ∈ res.similar_articles,
        row.common_neighbors ≠ round (row.similarity_score * 10) := by
  refine ⟨⟨"A0", "T0", [⟨"A1", "T1", 11/16, 6⟩], 0⟩, ?_, ⟨"A1", "T1", 11/16, 6⟩, ?_, ?_⟩
  · have h6 : pyInt ((11 : ℚ)/16 * 10) = 6 := by
      rw [pyInt, if_pos (by norm_num)]
      norm_num [Int.floor_eq_iff]
    simp [run_node_similarity, envSimRows, attachCommonNeighbors, h6]
  · simp
  · have h7 : round ((11 : ℚ)/16 * 10) = 7 := by
      norm_num [round_eq, Int.floor_eq_iff]
    simp [h7]

/-- C7 as amended: every similar article returned by the native
node-similarity path carries `common_neighbors` equal to the
truncation-toward-zero (for nonnegative scores, the floor) of ten times
its similarity score, not the rounded-to-nearest value. -/
theorem similarity_common_neighbors_truncated (aid : String) (env : GdsEnv)
    (hs : env.sourceExists = true) (hp : env.projectionFails = false)
    (ha : env.algorithmFails = false)
    (hpos : ∀ r ∈ env.engineRows, 0 ≤ r.similarity_score) :
    ∃ res, (run_node_similarity aid env).1 = .ok res ∧
      res.similar_articles = env.engineRows.map attachCommonNeighbors ∧
      ∀ row ∈ res.similar_articles,
        row.common_neighbors = ⌊row.similarity_score * 10⌋ := by
  refine ⟨⟨aid, env.sourceTitle, env.engineRows.map attachCommonNeighbors,
    env.elapsedMs⟩, ?_, rfl, ?_⟩
  · simp [run_node_similarity, hs, hp, ha]
  · intro row hrow
    obtain ⟨r, hr, hrw⟩ := List.mem_map.mp hrow
    have h0 : (0 : ℚ) ≤ r.similarity_score * 10 := by
      have := hpos r hr
      positivity
    subst hrw
    show pyInt (r.similarity_score * 10) = ⌊r.similarity_score * 10⌋
    rw [pyInt, if_pos h0]

/-- Witness for the amended C7 at the concrete environment
`envSimRows`. -/
theorem similarity_common_neighbors_truncated_witness :
    (envSimRows.sourceExists = true ∧ envSimRows.projectionFails = false ∧
      envSimRows.algorithmFails = false ∧
      ∀ r ∈ envSimRows.engineRows, 0 ≤ r.similarity_score) ∧
    ∃ res, (run_node_similarity "A0" envSimRows).1 = .ok res ∧
      res.similar_articles = envSimRows.engineRows.map attachCommonNeighbors ∧
      ∀ row ∈ res.similar_articles,
        row.common_neighbors = ⌊row.similarity_score * 10⌋ :=
  ⟨⟨rfl, rfl, rfl, by intro r hr; simp [envSimRows] at hr; rw [hr]; norm_num⟩,
    similarity_common_neighbors_truncated "A0" envSimRows rfl rfl rfl
      (by intro r hr; simp [envSimRows] at hr; rw [hr]; norm_num)⟩

/-! ## Analytics (claim C5) -/

/-- All rows of `MATCH ()-[r:REFERS_TO]-()`: an undirected relationship
pattern with distinct endpoints matches each stored relationship once per
traversal orientation (twice), while a self-loop is matched once. -/
def rawRefersToMatches (g : GraphStore) : List (Nat × Nat) :=
  g.refersTo.flatMap (fun e =>
    if e.1 = e.2 then [(e.1, e.2)] else [(e.1, e.2), (e.2, e.1)])

/-- The overall statistics block of `get_analytics`:
`count(r)/2 as total_edges` (integer halving of the raw undirected match
count) and `toFloat(total_edges * 2) / total_articles as avg_degree`. -/
structure AnalyticsStats where
  total_articles : Nat
  total_communities : Nat
  total_edges : Nat
  avg_degree : ℚ
deriving DecidableEq, Repr

/-- `Neo4jService.get_analytics` (overall statistics query followed by
`self.execute_query(stats_query)[0]`).  The query chains plain `MATCH`
clauses through aggregating `WITH` clauses:
`MATCH (a:Article) WITH count(a) as total_articles` aggregates without a
grouping key, so it yields one row even over an empty match; but
`MATCH (c:Community) WITH total_articles, count(c) as total_communities`
and `MATCH ()-[r:REFERS_TO]-() WITH ..., count(r)/2 as total_edges`
carry grouping keys, so over zero input rows they yield zero rows.
Hence on a store with no Community node or no REFERS_TO match the query
returns no rows and the `[0]` lookup raises (modelled as
`Except.error`); otherwise the single row carries
`count(r)/2 as total_edges` and
`toFloat(total_edges * 2) / total_articles as avg_degree`. -/
def get_analytics (g : GraphStore) : Except Unit AnalyticsStats :=
  if g.communities = [] then .error ()
  else if rawRefersToMatches g = [] then .error ()
  else
    .ok ⟨g.articles.length, g.communities.length,
      (rawRefersToMatches g).length / 2,
      (((rawRefersToMatches g).length / 2 * 2 : Nat) : ℚ) /
        (g.articles.length : ℚ)⟩

/-- Both-orientation expansion of a list of loop-free edges has twice its
length. -/
theorem bothOrientations_length (l : List (Nat × Nat))
    (h : ∀ e ∈ l, e.1 ≠ e.2) :
    (l.flatMap (fun e =>
      if e.1 = e.2 then [(e.1, e.2)] else [(e.1, e.2), (e.2, e.1)])).length =
      2 * l.length := by
  induction l with
  | nil => simp
  | cons e t ih =>
    have he : e.1 ≠ e.2 := h e (List.mem_cons_self e t)
    have ht : ∀ x ∈ t, x.1 ≠ x.2 := fun x hx => h x (List.mem_cons_of_mem _ hx)
    simp only [List.flatMap_cons, List.length_append, if_neg he, ih ht,
      List.length_cons, List.length_nil]
    ring

/-- In a store without self-loops, the raw undirected REFERS_TO match
count is exactly twice the number of stored edges. -/
theorem rawRefersToMatches_length (g : GraphStore)
    (h : ∀ e ∈ g.refersTo, e.1 ≠ e.2) :
    (rawRefersToMatches g).length = 2 * g.refersTo.length :=
  bothOrientations_length g.refersTo h

/-- A nonempty edge list yields a nonempty undirected match set. -/
theorem rawRefersToMatches_ne_nil (g : GraphStore) (hr : g.refersTo ≠ []) :
    rawRefersToMatches g ≠ [] := by
  unfold rawRefersToMatches
  cases hedges : g.refersTo with
  | nil => exact absurd hedges hr
  | cons e t =>
    by_cases hl : e.1 = e.2 <;> simp [hl]

/-! ### Claim C5 -/

/-- A well-formed store holding one Article but no Community node and no
REFERS_TO relationship. -/
def demoNoComm : GraphStore :=
  { articles := [⟨1, 1, none, none, "A1", "T1"⟩], refersTo := [],
    communities := [], belongsTo := [] }

/-- C5 counterexample: on a well-formed store with no Community node and
no REFERS_TO relationship the stats query returns zero rows (its grouped
aggregating `WITH` clauses have no input rows), so the `[0]` lookup in
`get_analytics` raises instead of producing any `total_edges` or
`avg_degree` value — refuting the claim for every graph state. -/
theorem analytics_empty_store_errors :
    demoNoComm.WF ∧ get_analytics demoNoComm = .error () :=
  ⟨by decide, rfl⟩

/-- C5 as amended: for every well-formed graph state with at least one
Community node and at least one REFERS_TO relationship, `get_analytics`
returns a stats row whose `total_edges` is exactly half of the raw
undirected-traversal REFERS_TO match count (doubling it reconstructs the
raw count) and whose `avg_degree` equals
`2 × total_edges / total_articles`; on a store with no Community node or
no REFERS_TO relationship the stats lookup raises instead of returning
values. -/
theorem analytics_edge_halving (g : GraphStore) (h : g.WF)
    (hc : g.communities ≠ []) (hr : g.refersTo ≠ []) :
    ∃ st, get_analytics g = .ok st ∧
      st.total_edges * 2 = (rawRefersToMatches g).length ∧
      st.avg_degree = 2 * (st.total_edges : ℚ) / (st.total_articles : ℚ) := by
  obtain ⟨-, -, -, hnl, -⟩ := h
  have hlen := rawRefersToMatches_length g hnl
  refine ⟨⟨g.articles.length, g.communities.length,
    (rawRefersToMatches g).length / 2,
    (((rawRefersToMatches g).length / 2 * 2 : Nat) : ℚ) /
      (g.articles.length : ℚ)⟩, ?_, ?_, ?_⟩
  · unfold get_analytics
    rw [if_neg hc, if_neg (rawRefersToMatches_ne_nil g hr)]
  · show (rawRefersToMatches g).length / 2 * 2 = (rawRefersToMatches g).length
    rw [hlen, Nat.mul_div_cancel_left _ (by norm_num)]
    ring
  · show (((rawRefersToMatches g).length / 2 * 2 : Nat) : ℚ) / (g.articles.length : ℚ) =
      2 * (((rawRefersToMatches g).length / 2 : Nat) : ℚ) / (g.articles.length : ℚ)
    push_cast
    ring

/-- A small well-formed demonstration store: three Articles in a path,
two of them in community 5. -/
def demoG : GraphStore :=
  { articles := [⟨1, 1, none, some 5, "A1", "T1"⟩, ⟨2, 2, none, some 5, "A2", "T2"⟩,
      ⟨3, 3, none, none, "A3", "T3"⟩],
    refersTo := [(1, 2), (2, 3)], communities := [5],
    belongsTo := [(1, 5), (2, 5)] }

/-- Witness for the amended C5 at the concrete store `demoG`. -/
theorem analytics_edge_halving_witness :
    (demoG.WF ∧ demoG.communities ≠ [] ∧ demoG.refersTo ≠ []) ∧
    ∃ st, get_analytics demoG = .ok st ∧
      st.total_edges * 2 = (rawRefersToMatches demoG).length ∧
      st.avg_degree = 2 * (st.total_edges : ℚ) / (st.total_articles : ℚ) :=
  ⟨⟨by decide, by decide, by decide⟩,
    analytics_edge_halving demoG (by decide) (by decide) (by decide)⟩

/-! ## Degree-centrality PageRank fallback (claim C2) -/

/-- One row of the fallback ranking:
`a.article_id, a.article_title, score`. -/
structure PageRankRow where
  article_id : String
  article_title : String
  score : ℚ
deriving DecidableEq, Repr

/-- Rows after
`MATCH (a:Article) OPTIONAL MATCH (a)-[r:REFERS_TO]-() WITH a, count(r) as degree`:
one row per Article with its REFERS_TO incidence count. -/
def articleDegreeRows (g : GraphStore) : List (Article × Nat) :=
  g.articles.map (fun a => (a, degreeOf g a.nodeId))

/-- Cypher `WITH a, degree, sum(degree) as total_degree`: an aggregating
`WITH` groups by its non-aggregated columns, here `(a, degree)`, and the
aggregate ranges over the rows of each group — one output row per
distinct `(a, degree)` key, whose sum covers exactly the rows sharing
that key. -/
def withSumDegree (rows : List (Article × Nat)) : List (Article × Nat × Nat) :=
  rows.dedup.map (fun key =>
    (key.1, key.2, ((rows.filter (fun r => r = key)).map (fun r => r.2)).sum))

/-- `_pagerank_fallback`'s scoring over the full dataset (the query body
before `ORDER BY score DESC LIMIT`):
`toFloat(degree) / total_degree as score`. -/
def pagerank_fallback_scores (g : GraphStore) : List PageRankRow :=
  (withSumDegree (articleDegreeRows g)).map
    (fun r => ⟨r.1.article_id, r.1.article_title, (r.2.1 : ℚ) / (r.2.2 : ℚ)⟩)

/-- Insertion step for `ORDER BY score DESC`. -/
def insertScoreDesc (x : PageRankRow) : List PageRankRow → List PageRankRow
  | [] => [x]
  | y :: ys => if y.score < x.score then x :: y :: ys else y :: insertScoreDesc x ys

/-- `Neo4jService._pagerank_fallback`: the scored rows ordered by score
descending, truncated to `limit`. -/
def pagerank_fallback (g : GraphStore) (limit : Nat) : List PageRankRow :=
  ((pagerank_fallback_scores g).foldr insertScoreDesc []).take limit

/-- Two Articles joined by a single REFERS_TO edge (both of degree 1). -/
def demoPR : GraphStore :=
  { articles := [⟨1, 1, none, none, "A1", "T1"⟩, ⟨2, 2, none, none, "A2", "T2"⟩],
    refersTo := [(1, 2)], communities := [], belongsTo := [] }

/-! ### Claim C2 -/

/-- C2 (code bug, evaluated): on two Articles of degree 1 joined by one
edge, `_pagerank_fallback` scores every Article `1.0` — the aggregating
`WITH a, degree, sum(degree) as total_degree` groups by `(a, degree)`,
so each group is a single row and `total_degree = degree` — hence the
full-dataset scores sum to `2`, while the claimed `degree / Σdegree`
scoring would give each Article `1/2` summing to `1`. -/
theorem pagerank_fallback_uniform_scores_bug :
    ((pagerank_fallback demoPR 10).map (fun r => r.score)) = [1, 1] ∧
    ((pagerank_fallback_scores demoPR).map (fun r => r.score)).sum = 2 ∧
    (degreeOf demoPR 1 : ℚ) /
      ((demoPR.articles.map (fun a => degreeOf demoPR a.nodeId)).sum : ℚ) = 1/2 := by
  have hrows : withSumDegree (articleDegreeRows demoPR) =
      [(⟨1, 1, none, none, "A1", "T1"⟩, 1, 1), (⟨2, 2, none, none, "A2", "T2"⟩, 1, 1)] := by
    decide
  have hdeg : degreeOf demoPR 1 = 1 := by decide
  have hdegs : demoPR.articles.map (fun a => degreeOf demoPR a.nodeId) = [1, 1] := by
    decide
  refine ⟨?_, ?_, ?_⟩
  · norm_num [pagerank_fallback, pagerank_fallback_scores, hrows, insertScoreDesc]
  · norm_num [pagerank_fallback_scores, hrows]
  · rw [hdeg, hdegs]
    norm_num

/-! ## Bounded shortest path (claim C4) -/

/-- Two Article nodes are adjacent when a REFERS_TO relationship joins
them in either stored orientation (the pattern is undirected). -/
def adjacent (g : GraphStore) (x y : Nat) : Prop :=
  (x, y) ∈ g.refersTo ∨ (y, x) ∈ g.refersTo

instance (g : GraphStore) (x y : Nat) : Decidable (adjacent g x y) := by
  unfold adjacent; infer_instance

/-- `Walk g x y n`: a REFERS_TO walk of exactly `n` edges from `x` to
`y` — the declarative notion of a connecting path of the claim. -/
inductive Walk (g : GraphStore) : Nat → Nat → Nat → Prop where
  | nil (x : Nat) : Walk g x x 0
  | cons {x y z n : Nat} : adjacent g x y → Walk g y z n → Walk g x z (n + 1)

/-- The nodes reachable from `s` by a walk of length at most `k`
(breadth-first expansion, the engine's bounded search). -/
def ball (g : GraphStore) (s : Nat) : Nat → List Nat
  | 0 => [s]
  | k + 1 => ((ball g s k) ++ (ball g s k).flatMap (undirectedMatches g)).dedup

/-- Least `k ≤ d` satisfying `p`, scanning upward. -/
def findLeast (p : Nat → Bool) : Nat → Option Nat
  | 0 => if p 0 then some 0 else none
  | d + 1 =>
    match findLeast p d with
    | some k => some k
    | none => if p (d + 1) then some (d + 1) else none

theorem mem_undirectedMatches {g : GraphStore} {x y : Nat} :
    y ∈ undirectedMatches g x ↔ adjacent g x y := by
  simp only [undirectedMatches, adjacent, List.mem_append, List.mem_filterMap]
  constructor
  · rintro (⟨e, he, hfe⟩ | ⟨e, he, hfe⟩)
    · left
      by_cases h1 : e.1 = x
      · rw [if_pos h1] at hfe
        have : e = (x, y) := by
          cases e; simp_all
        rwa [this] at he
      · rw [if_neg h1] at hfe; exact absurd hfe (by simp)
    · right
      by_cases h2 : e.2 = x
      · rw [if_pos h2] at hfe
        have : e = (y, x) := by
          cases e; simp_all
        rwa [this] at he
      · rw [if_neg h2] at hfe; exact absurd hfe (by simp)
  · rintro (h | h)
    · exact Or.inl ⟨(x, y), h, by simp⟩
    · exact Or.inr ⟨(y, x), h, by simp⟩

/-- Walks extend by one edge at the target end. -/
theorem Walk.snoc {g : GraphStore} {s u t n : Nat} (w : Walk g s u n)
    (h : adjacent g u t) : Walk g s t (n + 1) := by
  induction w with
  | nil x => exact Walk.cons h (Walk.nil t)
  | cons hadj _ ih => exact Walk.cons hadj (ih h)

/-- A nonempty walk decomposes as a walk followed by one edge. -/
theorem Walk.snoc_inv {g : GraphStore} {t : Nat} :
    ∀ {n s : Nat}, Walk g s t (n + 1) → ∃ u, Walk g s u n ∧ adjacent g u t := by
  intro n
  induction n with
  | zero =>
    intro s w
    cases w with
    | cons hadj w0 =>
      cases w0 with
      | nil _ => exact ⟨s, Walk.nil s, hadj⟩
  | succ m ih =>
    intro s w
    cases w with
    | cons hadj wrest =>
      obtain ⟨u, wu, hu⟩ := ih wrest
      exact ⟨u, Walk.cons hadj wu, hu⟩

/-- Balls grow with the radius. -/
theorem ball_subset_succ (g : GraphStore) (s : Nat) (k : Nat) :
    ∀ x ∈ ball g s k, x ∈ ball g s (k + 1) := by
  intro x hx
  simp only [ball, List.mem_dedup, List.mem_append]
  exact Or.inl hx

theorem ball_mono (g : GraphStore) (s : Nat) {k k' : Nat} (h : k ≤ k') :
    ∀ x ∈ ball g s k, x ∈ ball g s k' := by
  induction h with
  | refl => exact fun x hx => hx
  | step _ ih => exact fun x hx => ball_subset_succ g s _ x (ih x hx)

/-- Membership in a ball yields a bounded walk. -/
theorem ball_sound {g : GraphStore} {s : Nat} :
    ∀ k t, t ∈ ball g s k → ∃ l, l ≤ k ∧ Walk g s t l := by
  intro k
  induction k with
  | zero =>
    intro t h
    simp only [ball, List.mem_singleton] at h
    exact ⟨0, Nat.le_refl 0, by rw [h]; exact Walk.nil s⟩
  | succ m ih =>
    intro t h
    simp only [ball, List.mem_dedup, List.mem_append, List.mem_flatMap] at h
    rcases h with h | ⟨u, hu, ht⟩
    · obtain ⟨l, hl, w⟩ := ih t h
      exact ⟨l, Nat.le_succ_of_le hl, w⟩
    · obtain ⟨l, hl, w⟩ := ih u hu
      exact ⟨l + 1, Nat.succ_le_succ hl, w.snoc (mem_undirectedMatches.mp ht)⟩

/-- A walk of length `l` puts its endpoint in the radius-`l` ball. -/
theorem ball_complete {g : GraphStore} {s : Nat} :
    ∀ l t, Walk g s t l → t ∈ ball g s l := by
  intro l
  induction l with
  | zero =>
    intro t w
    cases w with
    | nil _ => simp [ball]
  | succ m ih =>
    intro t w
    obtain ⟨u, wu, hu⟩ := w.snoc_inv
    simp only [ball, List.mem_dedup, List.mem_append, List.mem_flatMap]
    exact Or.inr ⟨u, ih u wu, mem_undirectedMatches.mpr hu⟩

/-- Ball membership characterizes bounded reachability. -/
theorem mem_ball_iff {g : GraphStore} {s t k : Nat} :
    t ∈ ball g s k ↔ ∃ l, l ≤ k ∧ Walk g s t l := by
  constructor
  · exact ball_sound k t
  · rintro ⟨l, hl, w⟩
    exact ball_mono g s hl t (ball_complete l t w)

theorem findLeast_none {p : Nat → Bool} :
    ∀ {d : Nat}, findLeast p d = none → ∀ k ≤ d, p k = false := by
  intro d
  induction d with
  | zero =>
    intro h k hk
    interval_cases k
    simp only [findLeast] at h
    by_cases q : p 0 = true
    · rw [if_pos q] at h; exact absurd h (by simp)
    · simpa using q
  | succ m ih =>
    intro h k hk
    simp only [findLeast] at h
    cases hm : findLeast p m with
    | some k0 => rw [hm] at h; exact absurd h (by simp)
    | none =>
      rw [hm] at h
      rcases Nat.lt_or_ge k (m + 1) with hlt | hge
      · exact ih hm k (Nat.le_of_lt_succ hlt)
      · have : k = m + 1 := Nat.le_antisymm hk hge
        subst this
        by_cases q : p (m + 1) = true
        · rw [if_pos q] at h; exact absurd h (by simp)
        · simpa using q

theorem findLeast_some {p : Nat → Bool} :
    ∀ {d k : Nat}, findLeast p d = some k →
      p k = true ∧ k ≤ d ∧ ∀ j < k, p j = false := by
  intro d
  induction d with
  | zero =>
    intro k h
    by_cases h0 : p 0 = true
    · simp only [findLeast, if_pos h0, Option.some.injEq] at h
      subst h
      exact ⟨h0, Nat.le_refl 0, fun j hj => absurd hj (Nat.not_lt_zero j)⟩
    · simp only [findLeast, if_neg h0] at h
      exact absurd h (by simp)
  | succ m ih =>
    intro k h
    simp only [findLeast] at h
    cases hm : findLeast p m with
    | some k0 =>
      rw [hm, Option.some.injEq] at h
      subst h
      obtain ⟨h1, h2, h3⟩ := ih hm
      exact ⟨h1, Nat.le_succ_of_le h2, h3⟩
    | none =>
      rw [hm] at h
      by_cases hp : p (m + 1) = true
      · rw [if_pos hp, Option.some.injEq] at h
        subst h
        exact ⟨hp, Nat.le_refl _, fun j hj =>
          findLeast_none hm j (Nat.le_of_lt_succ hj)⟩
      · rw [if_neg hp] at h
        exact absurd h (by simp)

/-- One entry of the returned `path` column: the node projection
`{id: node.id, target: node.target, community_id: node.community_id}`. -/
structure PathNode where
  id : Int
  target : Option Int
  community_id : Option Int
deriving DecidableEq, Repr

/-- Internal-id lookup of an Article node. -/
def articleByNode (g : GraphStore) (n : Nat) : Option Article :=
  g.articles.find? (fun a => a.nodeId = n)

/-- A concrete node sequence realizing a shortest walk: from the current
node, step to any neighbour whose remaining distance to the target fits
the remaining budget. -/
def buildPath (g : GraphStore) (t : Nat) : Nat → Nat → List Nat
  | 0, x => [x]
  | k + 1, x =>
    match (undirectedMatches g x).find? (fun y => decide (t ∈ ball g y k)) with
    | some y => x :: buildPath g t k y
    | none => [x]

/-- The row set of
`MATCH (source:Article {id: $source_id}) MATCH (target:Article {id: $target_id})
MATCH path = shortestPath((source)-[:REFERS_TO*..max_depth]-(target))`:
empty unless both Articles resolve and some connecting walk of length at
most `max_depth` exists, in which case the single row carries the node
projections of a minimal-length connecting walk and its length. -/
def shortestPathRows (g : GraphStore) (source_id target_id : Int)
    (max_depth : Nat) : Option (List PathNode × Nat) :=
  match g.articles.find? (fun a => a.id = source_id),
      g.articles.find? (fun a => a.id = target_id) with
  | some s, some t =>
    match findLeast (fun k => decide (t.nodeId ∈ ball g s.nodeId k)) max_depth with
    | some l =>
      some ((buildPath g t.nodeId l s.nodeId).filterMap (fun n =>
        (articleByNode g n).map (fun a => ⟨a.id, a.target, a.community_id⟩)), l)
    | none => none
  | _, _ => none

/-- Response shape of `find_shortest_path`. -/
structure PathResult where
  path : List PathNode
  length : Nat
  found : Bool
deriving DecidableEq, Repr

/-- `Neo4jService.find_shortest_path`: wraps the query rows — a nonempty
result yields `{path, length, exists: True}` (the `found` field models
the Python `exists` key), an empty result yields
`{path: [], length: 0, exists: False}` as a normal return value. -/
def find_shortest_path (g : GraphStore) (source_id target_id : Int)
    (max_depth : Nat) : PathResult :=
  match shortestPathRows g source_id target_id max_depth with
  | some (p, l) => ⟨p, l, true⟩
  | none => ⟨[], 0, false⟩

/-! ### Claim C4 -/

/-- C4: for Articles `s`, `t` resolved from the two requested ids, if some
REFERS_TO walk of length at most `max_depth` connects them then
`find_shortest_path` reports `exists = true` with `length` the edge count
of a minimal connecting walk; if no such walk exists within the bound it
returns `exists = false`, `length = 0` and an empty path, as a normal
result. -/
theorem find_shortest_path_correct (g : GraphStore) (sid tid : Int)
    (d : Nat) (s t : Article)
    (hs : g.articles.find? (fun a => a.id = sid) = some s)
    (ht : g.articles.find? (fun a => a.id = tid) = some t) :
    ((∃ l, l ≤ d ∧ Walk g s.nodeId t.nodeId l) →
      (find_shortest_path g sid tid d).found = true ∧
      Walk g s.nodeId t.nodeId (find_shortest_path g sid tid d).length ∧
      ∀ l, Walk g s.nodeId t.nodeId l →
        (find_shortest_path g sid tid d).length ≤ l) ∧
    ((¬ ∃ l, l ≤ d ∧ Walk g s.nodeId t.nodeId l) →
      find_shortest_path g sid tid d = ⟨[], 0, false⟩) := by
  have hp : ∀ k, (decide (t.nodeId ∈ ball g s.nodeId k) = true) ↔
      ∃ l, l ≤ k ∧ Walk g s.nodeId t.nodeId l := by
    intro k
    rw [decide_eq_true_eq]
    exact mem_ball_iff
  constructor
  · rintro ⟨l, hl, w⟩
    cases hfl : findLeast (fun k => decide (t.nodeId ∈ ball g s.nodeId k)) d with
    | none =>
      exact absurd ((hp l).mpr ⟨l, Nat.le_refl l, w⟩)
        (by simp [findLeast_none hfl l hl])
    | some k =>
      obtain ⟨hpk, hkd, hmin⟩ := findLeast_some hfl
      have hres : find_shortest_path g sid tid d =
          ⟨(buildPath g t.nodeId k s.nodeId).filterMap (fun n =>
            (articleByNode g n).map (fun a => ⟨a.id, a.target, a.community_id⟩)),
            k, true⟩ := by
        unfold find_shortest_path shortestPathRows
        simp only [hs, ht, hfl]
      obtain ⟨l0, hl0, w0⟩ := (hp k).mp hpk
      have hwk : Walk g s.nodeId t.nodeId k := by
        rcases Nat.lt_or_ge l0 k with hlt | hge
        · exact absurd ((hp l0).mpr ⟨l0, Nat.le_refl l0, w0⟩)
            (by simp [hmin l0 hlt])
        · have : l0 = k := Nat.le_antisymm hl0 hge
          exact this ▸ w0
      refine ⟨by rw [hres], by rw [hres]; exact hwk, ?_⟩
      intro l1 w1
      rw [hres]
      by_contra hcon
      have hlt : l1 < k := Nat.lt_of_not_le hcon
      exact absurd ((hp l1).mpr ⟨l1, Nat.le_refl l1, w1⟩)
        (by simp [hmin l1 hlt])
  · intro hno
    cases hfl : findLeast (fun k => decide (t.nodeId ∈ ball g s.nodeId k)) d with
    | none =>
      unfold find_shortest_path shortestPathRows
      simp only [hs, ht, hfl]
    | some k =>
      obtain ⟨hpk, hkd, -⟩ := findLeast_some hfl
      obtain ⟨l0, hl0, w0⟩ := (hp k).mp hpk
      exact absurd ⟨l0, Nat.le_trans hl0 hkd, w0⟩ hno

/-- Witness for C4 on `demoG` (path 1–2–3): both directions of the claim
at concrete inputs, with the positive side instantiated at source id 1,
target id 3, depth 5 and the negative side checked by evaluation. -/
theorem find_shortest_path_correct_witness :
    (demoG.articles.find? (fun a => a.id = 1) =
        some ⟨1, 1, none, some 5, "A1", "T1"⟩ ∧
      demoG.articles.find? (fun a => a.id = 3) =
        some ⟨3, 3, none, none, "A3", "T3"⟩) ∧
    ((∃ l, l ≤ 5 ∧ Walk demoG 1 3 l) →
      (find_shortest_path demoG 1 3 5).found = true ∧
      Walk demoG 1 3 (find_shortest_path demoG 1 3 5).length ∧
      ∀ l, Walk demoG 1 3 l → (find_shortest_path demoG 1 3 5).length ≤ l) ∧
    ((¬ ∃ l, l ≤ 5 ∧ Walk demoG 1 3 l) →
      find_shortest_path demoG 1 3 5 = ⟨[], 0, false⟩) :=
  ⟨⟨by decide, by decide⟩,
    find_shortest_path_correct demoG 1 3 5
      ⟨1, 1, none, some 5, "A1", "T1"⟩ ⟨3, 3, none, none, "A3", "T3"⟩
      (by decide) (by decide)⟩

/-! ## Community subgraph export (claim C6) -/

/-- One row of the export node query:
`a.id, a.target, a.community_id`. -/
structure NodeRow where
  id : Int
  target : Option Int
  community_id : Option Int
deriving DecidableEq, Repr

/-- One row of the export edge queries:
`a1.id as source, a2.id as target, a2.community_id as target_community`. -/
structure EdgeRow where
  source : Int
  target : Int
  target_community : Option Int
deriving DecidableEq, Repr

/-- `MATCH (a:Article)-[:BELONGS_TO]->(c:Community {community_id: cid})`:
the member Articles of the requested community (no rows when no such
Community node exists). -/
def communityMembers (g : GraphStore) (cid : Int) : List Article :=
  if cid ∈ g.communities then
    g.articles.filter (fun a => decide ((a.nodeId, cid) ∈ g.belongsTo))
  else []

/-- The row built from one traversal `(a1)-[r:REFERS_TO]-(a2:Article)` of
the internal-edges query: keep it when `a2` also belongs to the requested
community and `id(a1) < id(a2)`. -/
def internalEdgeRow (g : GraphStore) (cid : Int) (a1 : Article) (n2 : Nat) :
    Option EdgeRow :=
  match articleByNode g n2 with
  | some a2 =>
    if (a2.nodeId, cid) ∈ g.belongsTo ∧ a1.nodeId < a2.nodeId then
      some ⟨a1.id, a2.id, a2.community_id⟩
    else none
  | none => none

/-- The row built from one traversal of the cross-edges query: no
community restriction on `a2` and no endpoint ordering. -/
def crossEdgeRow (g : GraphStore) (a1 : Article) (n2 : Nat) : Option EdgeRow :=
  (articleByNode g n2).map (fun a2 => ⟨a1.id, a2.id, a2.community_id⟩)

/-- The `include_cross_edges=False` edge query of `export_subgraph`:
internal edges only, deduplicated by `WHERE id(a1) < id(a2)`. -/
def export_subgraph_internal (g : GraphStore) (cid : Int) : List EdgeRow :=
  (communityMembers g cid).flatMap (fun a1 =>
    (undirectedMatches g a1.nodeId).filterMap (internalEdgeRow g cid a1))

/-- The `include_cross_edges=True` edge query of `export_subgraph`: all
REFERS_TO traversals out of member articles, under `RETURN DISTINCT`. -/
def export_subgraph_cross (g : GraphStore) (cid : Int) : List EdgeRow :=
  ((communityMembers g cid).flatMap (fun a1 =>
    (undirectedMatches g a1.nodeId).filterMap (crossEdgeRow g a1))).dedup

/-- Response shape of `export_subgraph`. -/
structure SubgraphResult where
  community_id : Int
  nodes : List NodeRow
  edges : List EdgeRow
  node_count : Nat
  edge_count : Nat
deriving DecidableEq, Repr

/-- `Neo4jService.export_subgraph`. -/
def export_subgraph (g : GraphStore) (cid : Int)
    (include_cross_edges : Bool) : SubgraphResult :=
  let nodes := (communityMembers g cid).map
    (fun a => (⟨a.id, a.target, a.community_id⟩ : NodeRow))
  let edges := if include_cross_edges then export_subgraph_cross g cid
    else export_subgraph_internal g cid
  ⟨cid, nodes, edges, nodes.length, edges.length⟩

theorem articleByNode_mem {g : GraphStore} {n : Nat} {a : Article}
    (h : articleByNode g n = some a) : a ∈ g.articles ∧ a.nodeId = n :=
  ⟨List.mem_of_find?_eq_some h, by
    have := List.find?_some h
    simpa using this⟩

theorem ifPair_eq_some_fst {x c : Nat} {e : Nat × Nat}
    (h : (if e.1 = x then some e.2 else none) = some c) : e = (x, c) := by
  by_cases h1 : e.1 = x
  · rw [if_pos h1] at h
    cases e
    simp_all
  · rw [if_neg h1] at h
    exact absurd h (by simp)

theorem ifPair_eq_some_snd {x c : Nat} {e : Nat × Nat}
    (h : (if e.2 = x then some e.1 else none) = some c) : e = (c, x) := by
  by_cases h2 : e.2 = x
  · rw [if_pos h2] at h
    cases e
    simp_all
  · rw [if_neg h2] at h
    exact absurd h (by simp)

/-- In a well-formed store the undirected matches around a node list each
neighbour once. -/
theorem undirectedMatches_nodup (g : GraphStore) (hg : g.WF) (x : Nat) :
    (undirectedMatches g x).Nodup := by
  obtain ⟨-, -, -, hnl, hnd, hrev, -, -, -⟩ := hg
  unfold undirectedMatches
  refine List.Nodup.append ?_ ?_ ?_
  · refine List.Nodup.filterMap ?_ hnd
    intro e e' b hb hb'
    rw [Option.mem_def] at hb hb'
    rw [ifPair_eq_some_fst hb, ifPair_eq_some_fst hb']
  · refine List.Nodup.filterMap ?_ hnd
    intro e e' b hb hb'
    rw [Option.mem_def] at hb hb'
    rw [ifPair_eq_some_snd hb, ifPair_eq_some_snd hb']
  · rw [List.disjoint_left]
    intro c hc1 hc2
    rw [List.mem_filterMap] at hc1 hc2
    obtain ⟨e, he, hfe⟩ := hc1
    obtain ⟨e', he', hfe'⟩ := hc2
    rw [ifPair_eq_some_fst hfe] at he
    rw [ifPair_eq_some_snd hfe'] at he'
    exact hrev (x, c) he he'

theorem mem_communityMembers {g : GraphStore} {cid : Int} {a : Article} :
    a ∈ communityMembers g cid ↔
      a ∈ g.articles ∧ (a.nodeId, cid) ∈ g.belongsTo ∧ cid ∈ g.communities := by
  unfold communityMembers
  by_cases hc : cid ∈ g.communities
  · simp [hc, List.mem_filter, and_assoc]
  · simp [hc]

theorem communityMembers_nodup (g : GraphStore) (hg : g.WF) (cid : Int) :
    (communityMembers g cid).Nodup := by
  obtain ⟨hnid, -, -, -, -, -, -, -, -⟩ := hg
  have harts : g.articles.Nodup := hnid.of_map
  unfold communityMembers
  by_cases hc : cid ∈ g.communities
  · rw [if_pos hc]
    exact harts.filter _
  · rw [if_neg hc]
    exact List.nodup_nil

theorem internalEdgeRow_inv {g : GraphStore} {cid : Int} {a1 : Article}
    {n2 : Nat} {row : EdgeRow} (h : internalEdgeRow g cid a1 n2 = some row) :
    ∃ a2, articleByNode g n2 = some a2 ∧ (a2.nodeId, cid) ∈ g.belongsTo ∧
      a1.nodeId < a2.nodeId ∧ row = ⟨a1.id, a2.id, a2.community_id⟩ := by
  unfold internalEdgeRow at h
  split at h
  · rename_i a2 heq
    split at h
    · rename_i hcond
      exact ⟨a2, heq, hcond.1, hcond.2, (Option.some.inj h).symm⟩
    · exact absurd h (by simp)
  · exact absurd h (by simp)

theorem export_subgraph_edges_false (g : GraphStore) (cid : Int) :
    (export_subgraph g cid false).edges = export_subgraph_internal g cid := rfl

theorem export_subgraph_edges_true (g : GraphStore) (cid : Int) :
    (export_subgraph g cid true).edges = export_subgraph_cross g cid := rfl

/-! ### Claim C6 -/

/-- C6: with `include_cross_edges=false`, `export_subgraph` returns only
REFERS_TO edges whose both endpoints belong to the requested community —
no duplicates (each qualifying stored edge appears exactly once, in its
`id(a1) < id(a2)` orientation, and every qualifying stored edge does
appear) — and with `include_cross_edges=true` the returned edge set is a
superset of the `false` case. -/
theorem export_subgraph_internal_edges (g : GraphStore) (hg : g.WF) (cid : Int) :
    (export_subgraph g cid false).edges.Nodup ∧
    (∀ row ∈ (export_subgraph g cid false).edges, ∃ a1 a2,
      a1 ∈ g.articles ∧ a2 ∈ g.articles ∧
      ((a1.nodeId, a2.nodeId) ∈ g.refersTo ∨ (a2.nodeId, a1.nodeId) ∈ g.refersTo) ∧
      (a1.nodeId, cid) ∈ g.belongsTo ∧ (a2.nodeId, cid) ∈ g.belongsTo ∧
      a1.nodeId < a2.nodeId ∧ row = ⟨a1.id, a2.id, a2.community_id⟩) ∧
    (∀ u v, (u, v) ∈ g.refersTo → ∀ a1 a2,
      articleByNode g u = some a1 → articleByNode g v = some a2 →
      (a1.nodeId, cid) ∈ g.belongsTo → (a2.nodeId, cid) ∈ g.belongsTo →
      cid ∈ g.communities →
      (if a1.nodeId < a2.nodeId then (⟨a1.id, a2.id, a2.community_id⟩ : EdgeRow)
        else ⟨a2.id, a1.id, a1.community_id⟩) ∈ (export_subgraph g cid false).edges) ∧
    (∀ row ∈ (export_subgraph g cid false).edges,
      row ∈ (export_subgraph g cid true).edges) := by
  obtain ⟨hnid, hids, hed, hnl, hnd, hrev, hcnd, hbf, hbnd⟩ := hg
  have hgwf : g.WF := ⟨hnid, hids, hed, hnl, hnd, hrev, hcnd, hbf, hbnd⟩
  have idInj := List.inj_on_of_nodup_map hids
  simp only [export_subgraph_edges_false, export_subgraph_edges_true]
  refine ⟨?_, ?_, ?_, ?_⟩
  · unfold export_subgraph_internal
    rw [List.nodup_flatMap]
    constructor
    · intro a1 ha1
      refine List.Nodup.filterMap ?_ (undirectedMatches_nodup g hgwf a1.nodeId)
      intro n2 n2' row hr hr'
      rw [Option.mem_def] at hr hr'
      obtain ⟨a2, hab, -, -, hrow⟩ := internalEdgeRow_inv hr
      obtain ⟨a2', hab', -, -, hrow'⟩ := internalEdgeRow_inv hr'
      obtain ⟨ha2m, ha2n⟩ := articleByNode_mem hab
      obtain ⟨ha2m', ha2n'⟩ := articleByNode_mem hab'
      have heq : a2 = a2' := by
        have h2 := hrow.symm.trans hrow'
        simp only [EdgeRow.mk.injEq] at h2
        exact idInj ha2m ha2m' h2.2.1
      rw [← ha2n, ← ha2n', heq]
    · refine List.Pairwise.imp_of_mem ?_
        (List.Pairwise.imp (fun hne => hne) (communityMembers_nodup g hgwf cid))
      intro a1 b1 ha1 hb1 hne
      intro row hra hrb
      rw [List.mem_filterMap] at hra hrb
      obtain ⟨n2, -, heqa⟩ := hra
      obtain ⟨m2, -, heqb⟩ := hrb
      obtain ⟨a2, -, -, -, hrowa⟩ := internalEdgeRow_inv heqa
      obtain ⟨b2, -, -, -, hrowb⟩ := internalEdgeRow_inv heqb
      have hid : a1.id = b1.id := by
        have h2 := hrowa.symm.trans hrowb
        simp only [EdgeRow.mk.injEq] at h2
        exact h2.1
      exact hne (idInj (mem_communityMembers.mp ha1).1 (mem_communityMembers.mp hb1).1 hid)
  · intro row hrow
    unfold export_subgraph_internal at hrow
    rw [List.mem_flatMap] at hrow
    obtain ⟨a1, ha1, hrow⟩ := hrow
    rw [List.mem_filterMap] at hrow
    obtain ⟨n2, hn2, heq⟩ := hrow
    obtain ⟨a2, hab, hb2, hlt, hroweq⟩ := internalEdgeRow_inv heq
    obtain ⟨ha1m, hb1, -⟩ := mem_communityMembers.mp ha1
    obtain ⟨ha2m, ha2n⟩ := articleByNode_mem hab
    have hadj : adjacent g a1.nodeId n2 := mem_undirectedMatches.mp hn2
    refine ⟨a1, a2, ha1m, ha2m, ?_, hb1, hb2, hlt, hroweq⟩
    rw [ha2n]
    exact hadj
  · intro u v huv a1 a2 hau hav hb1 hb2 hcm
    obtain ⟨ha1m, ha1n⟩ := articleByNode_mem hau
    obtain ⟨ha2m, ha2n⟩ := articleByNode_mem hav
    have hne : u ≠ v := hnl (u, v) huv
    rcases Nat.lt_or_ge a1.nodeId a2.nodeId with hlt | hge
    · rw [if_pos hlt]
      unfold export_subgraph_internal
      rw [List.mem_flatMap]
      refine ⟨a1, mem_communityMembers.mpr ⟨ha1m, hb1, hcm⟩, ?_⟩
      rw [List.mem_filterMap]
      refine ⟨v, ?_, ?_⟩
      · rw [ha1n]
        exact mem_undirectedMatches.mpr (Or.inl huv)
      · simp [internalEdgeRow, hav, hb2, hlt]
    · have hne2 : a2.nodeId ≠ a1.nodeId := by
        rw [ha1n, ha2n]
        exact hne.symm
      have hlt' : a2.nodeId < a1.nodeId := Nat.lt_of_le_of_ne hge hne2
      rw [if_neg (Nat.not_lt.mpr hge)]
      unfold export_subgraph_internal
      rw [List.mem_flatMap]
      refine ⟨a2, mem_communityMembers.mpr ⟨ha2m, hb2, hcm⟩, ?_⟩
      rw [List.mem_filterMap]
      refine ⟨u, ?_, ?_⟩
      · rw [ha2n]
        exact mem_undirectedMatches.mpr (Or.inr huv)
      · simp [internalEdgeRow, hau, hb1, hlt']
  · intro row hrow
    unfold export_subgraph_internal at hrow
    rw [List.mem_flatMap] at hrow
    obtain ⟨a1, ha1, hrow⟩ := hrow
    rw [List.mem_filterMap] at hrow
    obtain ⟨n2, hn2, heq⟩ := hrow
    obtain ⟨a2, hab, -, -, hroweq⟩ := internalEdgeRow_inv heq
    unfold export_subgraph_cross
    rw [List.mem_dedup, List.mem_flatMap]
    refine ⟨a1, ha1, ?_⟩
    rw [List.mem_filterMap]
    refine ⟨n2, hn2, ?_⟩
    unfold crossEdgeRow
    rw [hab, hroweq]
    rfl

/-- Witness for C6 at the concrete store `demoG` and community 5 (whose
members are Articles 1 and 2, joined by the stored edge `(1, 2)`). -/
theorem export_subgraph_internal_edges_witness :
    demoG.WF ∧
    ((export_subgraph demoG 5 false).edges.Nodup ∧
      (∀ row ∈ (export_subgraph demoG 5 false).edges, ∃ a1 a2,
        a1 ∈ demoG.articles ∧ a2 ∈ demoG.articles ∧
        ((a1.nodeId, a2.nodeId) ∈ demoG.refersTo ∨
          (a2.nodeId, a1.nodeId) ∈ demoG.refersTo) ∧
        (a1.nodeId, 5) ∈ demoG.belongsTo ∧ (a2.nodeId, 5) ∈ demoG.belongsTo ∧
        a1.nodeId < a2.nodeId ∧ row = ⟨a1.id, a2.id, a2.community_id⟩) ∧
      (∀ u v, (u, v) ∈ demoG.refersTo → ∀ a1 a2,
        articleByNode demoG u = some a1 → articleByNode demoG v = some a2 →
        (a1.nodeId, 5) ∈ demoG.belongsTo → (a2.nodeId, 5) ∈ demoG.belongsTo →
        (5 : Int) ∈ demoG.communities →
        (if a1.nodeId < a2.nodeId then (⟨a1.id, a2.id, a2.community_id⟩ : EdgeRow)
          else ⟨a2.id, a1.id, a1.community_id⟩) ∈
            (export_subgraph demoG 5 false).edges) ∧
      (∀ row ∈ (export_subgraph demoG 5 false).edges,
        row ∈ (export_subgraph demoG 5 true).edges)) :=
  ⟨by decide, export_subgraph_internal_edges demoG (by decide) 5⟩
